import Mathlib

/-!
Shallow embedding of the core of the Solana arbitrage sniper bot:
market analysis (`MarketAnalyzer.findArbitrageOpportunities`), market data
collection (`MarketDataCollector`), opportunity ingestion and execution
control (`ArbitrageDetector`), strategy filtering (`ArbitrageStrategy`),
and trade execution (`SwapExecutor`, `ArbitrageExecutor`).

Conventions of the embedding:
* JS numbers that hold prices, amounts and percentages are modelled as `ℚ`.
* JS timestamps (`Date.now()`, always a non-negative integer number of
  milliseconds) are modelled as `ℕ`; subtractions that may be negative in
  JS are computed in `ℤ` by casting, so no truncation is introduced.
* `Date.now()` readings are passed in as explicit `now` parameters.
* JS `Map` objects (insertion ordered, unique keys) are modelled as
  association lists.
* Optional / possibly-`undefined` values are `Option`.
-/

namespace ArbBot

/-- Trade direction of an opportunity (`'buy' | 'sell'` in the source). -/
inductive Direction where
  | buy
  | sell
deriving DecidableEq

/-- Lifecycle status of an executable opportunity
(`'pending' | 'executing' | 'completed' | 'failed'`). -/
inductive OppStatus where
  | pending
  | executing
  | completed
  | failed
deriving DecidableEq

/-- `PriceData` from `market-collector.ts`: one venue quote for a pair. -/
structure PriceData where
  dex : String
  pair : String
  bid : ℚ
  ask : ℚ
  last : Option ℚ
  timestamp : ℕ
deriving DecidableEq

/-- `ArbitrageOpportunity` from the market analyzer module. -/
structure ArbitrageOpportunity where
  sourceDex : String
  targetDex : String
  pair : String
  profitPercentage : ℚ
  estimatedProfit : ℚ
  sourcePrice : ℚ
  targetPrice : ℚ
  direction : Direction
  timestamp : ℕ
  tradeSize : ℚ
deriving DecidableEq

/-- Mutable configuration fields of `MarketAnalyzer`. -/
structure MarketAnalyzer where
  minProfitThreshold : ℚ
  maxSlippage : ℚ
  tradeSizeUsd : ℚ
  gasCostSol : ℚ
  solPriceUsd : ℚ
deriving DecidableEq

/-- All ordered index pairs `(i, j)` with `i < j` of a list, in the visit
order of the double loop `for i ...; for j = i+1 ...` of
`findArbitrageOpportunities`. -/
def allPairs : List PriceData → List (PriceData × PriceData)
  | [] => []
  | x :: xs => xs.map (fun y => (x, y)) ++ allPairs xs

/-- Body of the inner loop of `findArbitrageOpportunities` for one venue
pair `(dexA, dexB)`: the freshness guard, then the two spread checks.
Note the source pushes `direction: 'buy'` in BOTH branches: the second
branch (buy on `dexB`, sell on `dexA`) swaps source/target but still
labels the opportunity `'buy'`. -/
def checkPair (a : MarketAnalyzer) (now : ℕ) (pair : String)
    (dexA dexB : PriceData) : List ArbitrageOpportunity :=
  let gasCostUsd := a.gasCostSol * a.solPriceUsd
  if (30000 : ℤ) < (now : ℤ) - (dexA.timestamp : ℤ)
      ∨ (30000 : ℤ) < (now : ℤ) - (dexB.timestamp : ℤ) then
    []
  else
    (if dexA.ask < dexB.bid then
      let profitPerUnit := dexB.bid - dexA.ask
      let profitPercentage := profitPerUnit / dexA.ask * 100
      let tradeSize := a.tradeSizeUsd / dexA.ask
      let estimatedProfit := profitPerUnit * tradeSize - gasCostUsd
      if a.minProfitThreshold ≤ profitPercentage ∧ 0 < estimatedProfit then
        [{ sourceDex := dexA.dex, targetDex := dexB.dex, pair := pair,
           profitPercentage := profitPercentage,
           estimatedProfit := estimatedProfit,
           sourcePrice := dexA.ask, targetPrice := dexB.bid,
           direction := .buy, timestamp := now, tradeSize := tradeSize }]
      else []
    else []) ++
    (if dexB.ask < dexA.bid then
      let profitPerUnit := dexA.bid - dexB.ask
      let profitPercentage := profitPerUnit / dexB.ask * 100
      let tradeSize := a.tradeSizeUsd / dexB.ask
      let estimatedProfit := profitPerUnit * tradeSize - gasCostUsd
      if a.minProfitThreshold ≤ profitPercentage ∧ 0 < estimatedProfit then
        [{ sourceDex := dexB.dex, targetDex := dexA.dex, pair := pair,
           profitPercentage := profitPercentage,
           estimatedProfit := estimatedProfit,
           sourcePrice := dexB.ask, targetPrice := dexA.bid,
           direction := .buy, timestamp := now, tradeSize := tradeSize }]
      else []
    else [])

/-- Per-pair part of `findArbitrageOpportunities`: the `< 2` venue guard
followed by the pairwise comparison loops. -/
def analyzePair (a : MarketAnalyzer) (now : ℕ) (pair : String)
    (arr : List PriceData) : List ArbitrageOpportunity :=
  if arr.length < 2 then []
  else (allPairs arr).flatMap (fun q => checkPair a now pair q.1 q.2)

/-- Stable insertion step for the final descending sort by
`profitPercentage` (JS `Array.prototype.sort` with comparator
`(x, y) => y.profitPercentage - x.profitPercentage` is a stable
descending sort). -/
def insertByProfit (o : ArbitrageOpportunity) :
    List ArbitrageOpportunity → List ArbitrageOpportunity
  | [] => [o]
  | x :: xs =>
    if o.profitPercentage < x.profitPercentage then x :: insertByProfit o xs
    else o :: x :: xs

/-- Stable descending sort by `profitPercentage`. -/
def sortByProfitDesc (l : List ArbitrageOpportunity) :
    List ArbitrageOpportunity :=
  l.foldr insertByProfit []

/-- `MarketAnalyzer.findArbitrageOpportunities`.  The market data map is an
association list from pair name to the per-venue quote list; `now` is the
`Date.now()` reading taken during the scan. -/
def findArbitrageOpportunities (a : MarketAnalyzer) (now : ℕ)
    (marketData : List (String × List PriceData)) :
    List ArbitrageOpportunity :=
  sortByProfitDesc
    (marketData.flatMap (fun pr => analyzePair a now pr.1 pr.2))

/-- The final sort permutes the detected list, so membership is preserved. -/
theorem mem_insertByProfit {a o : ArbitrageOpportunity}
    {l : List ArbitrageOpportunity} :
    a ∈ insertByProfit o l ↔ a = o ∨ a ∈ l := by
  induction l with
  | nil => simp [insertByProfit]
  | cons x xs ih =>
    simp only [insertByProfit]
    by_cases h : o.profitPercentage < x.profitPercentage
    · simp only [if_pos h, List.mem_cons, ih]
      tauto
    · simp only [if_neg h, List.mem_cons]

theorem mem_sortByProfitDesc {a : ArbitrageOpportunity}
    {l : List ArbitrageOpportunity} :
    a ∈ sortByProfitDesc l ↔ a ∈ l := by
  induction l with
  | nil => simp [sortByProfitDesc]
  | cons x xs ih =>
    show a ∈ insertByProfit x (sortByProfitDesc xs) ↔ _
    rw [mem_insertByProfit]
    simp [ih]

theorem mem_of_mem_allPairs {x y : PriceData} {l : List PriceData}
    (h : (x, y) ∈ allPairs l) : x ∈ l ∧ y ∈ l := by
  induction l with
  | nil => simp [allPairs] at h
  | cons z zs ih =>
    simp only [allPairs, List.mem_append, List.mem_map] at h
    rcases h with ⟨w, hw, heq⟩ | h
    · obtain ⟨rfl, rfl⟩ := Prod.mk.injEq .. ▸ heq
      exact ⟨List.mem_cons_self .., List.mem_cons_of_mem _ hw⟩
    · exact ⟨List.mem_cons_of_mem _ (ih h).1, List.mem_cons_of_mem _ (ih h).2⟩

theorem two_le_length_of_mem_allPairs {x y : PriceData} {l : List PriceData}
    (h : (x, y) ∈ allPairs l) : 2 ≤ l.length := by
  induction l with
  | nil => simp [allPairs] at h
  | cons z zs ih =>
    simp only [allPairs, List.mem_append, List.mem_map] at h
    rcases h with ⟨w, hw, _⟩ | h
    · cases zs with
      | nil => simp at hw
      | cons _ _ => simp [List.length_cons]
    · have := ih h
      simp [List.length_cons]
      omega

theorem mem_find_of_mem_checkPair {a : MarketAnalyzer} {now : ℕ}
    {data : List (String × List PriceData)} {pair : String}
    {arr : List PriceData} {dexA dexB : PriceData} {o : ArbitrageOpportunity}
    (hdata : (pair, arr) ∈ data) (hpair : (dexA, dexB) ∈ allPairs arr)
    (ho : o ∈ checkPair a now pair dexA dexB) :
    o ∈ findArbitrageOpportunities a now data := by
  rw [findArbitrageOpportunities, mem_sortByProfitDesc, List.mem_flatMap]
  refine ⟨(pair, arr), hdata, ?_⟩
  show o ∈ analyzePair a now pair arr
  rw [analyzePair, if_neg (by have := two_le_length_of_mem_allPairs hpair; omega)]
  rw [List.mem_flatMap]
  exact ⟨(dexA, dexB), hpair, ho⟩

/-- Setting the output timestamp to zero; used to isolate exactly how the
ambient clock reading enters the detection result. -/
def stripTimestamp (o : ArbitrageOpportunity) : ArbitrageOpportunity :=
  { o with timestamp := 0 }

theorem stripTimestamp_profitPercentage (o : ArbitrageOpportunity) :
    (stripTimestamp o).profitPercentage = o.profitPercentage := rfl

theorem insertByProfit_map_strip (o : ArbitrageOpportunity)
    (l : List ArbitrageOpportunity) :
    (insertByProfit o l).map stripTimestamp
      = insertByProfit (stripTimestamp o) (l.map stripTimestamp) := by
  induction l with
  | nil => rfl
  | cons x xs ih =>
    simp only [insertByProfit, List.map, stripTimestamp_profitPercentage]
    by_cases h : o.profitPercentage < x.profitPercentage
    · rw [if_pos h, if_pos h]
      simp [List.map, ih]
    · rw [if_neg h, if_neg h]
      simp [List.map]

theorem sortByProfitDesc_map_strip (l : List ArbitrageOpportunity) :
    (sortByProfitDesc l).map stripTimestamp
      = sortByProfitDesc (l.map stripTimestamp) := by
  induction l with
  | nil => rfl
  | cons x xs ih =>
    show (insertByProfit x (sortByProfitDesc xs)).map stripTimestamp = _
    rw [insertByProfit_map_strip, ih]
    rfl

theorem flatMapCongrMem {α β : Type} {l : List α} {f g : α → List β}
    (h : ∀ x ∈ l, f x = g x) : l.flatMap f = l.flatMap g := by
  induction l with
  | nil => rfl
  | cons x xs ih =>
    simp only [List.flatMap_cons]
    rw [h x (List.mem_cons_self ..), ih (fun y hy => h y (List.mem_cons_of_mem _ hy))]

theorem checkPair_map_strip (a : MarketAnalyzer) (now1 now2 : ℕ) (pair : String)
    (dexA dexB : PriceData)
    (hA : (30000 : ℤ) < (now1 : ℤ) - (dexA.timestamp : ℤ)
        ↔ (30000 : ℤ) < (now2 : ℤ) - (dexA.timestamp : ℤ))
    (hB : (30000 : ℤ) < (now1 : ℤ) - (dexB.timestamp : ℤ)
        ↔ (30000 : ℤ) < (now2 : ℤ) - (dexB.timestamp : ℤ)) :
    (checkPair a now1 pair dexA dexB).map stripTimestamp
      = (checkPair a now2 pair dexA dexB).map stripTimestamp := by
  have hgiff : ((30000 : ℤ) < (now1 : ℤ) - (dexA.timestamp : ℤ)
      ∨ (30000 : ℤ) < (now1 : ℤ) - (dexB.timestamp : ℤ))
      ↔ ((30000 : ℤ) < (now2 : ℤ) - (dexA.timestamp : ℤ)
      ∨ (30000 : ℤ) < (now2 : ℤ) - (dexB.timestamp : ℤ)) := or_congr hA hB
  simp only [checkPair]
  by_cases hg : (30000 : ℤ) < (now1 : ℤ) - (dexA.timestamp : ℤ)
      ∨ (30000 : ℤ) < (now1 : ℤ) - (dexB.timestamp : ℤ)
  · rw [if_pos hg, if_pos (hgiff.mp hg)]
  · rw [if_neg hg, if_neg (fun hx => hg (hgiff.mpr hx))]
    rw [List.map_append, List.map_append]
    congr 1
    · by_cases h1 : dexA.ask < dexB.bid
      · rw [if_pos h1, if_pos h1]
        by_cases h2 : a.minProfitThreshold ≤ (dexB.bid - dexA.ask) / dexA.ask * 100
            ∧ 0 < (dexB.bid - dexA.ask) * (a.tradeSizeUsd / dexA.ask)
              - a.gasCostSol * a.solPriceUsd
        · rw [if_pos h2, if_pos h2]
          simp [stripTimestamp]
        · rw [if_neg h2, if_neg h2]
      · rw [if_neg h1, if_neg h1]
    · by_cases h1 : dexB.ask < dexA.bid
      · rw [if_pos h1, if_pos h1]
        by_cases h2 : a.minProfitThreshold ≤ (dexA.bid - dexB.ask) / dexB.ask * 100
            ∧ 0 < (dexA.bid - dexB.ask) * (a.tradeSizeUsd / dexB.ask)
              - a.gasCostSol * a.solPriceUsd
        · rw [if_pos h2, if_pos h2]
          simp [stripTimestamp]
        · rw [if_neg h2, if_neg h2]
      · rw [if_neg h1, if_neg h1]

/-- Analyzer with the constructor default configuration of the source
(threshold 0.5 percent, 0.3 percent slippage, 1000 USD trade size, gas
0.001 SOL at 150 USD per SOL). -/
def analyzer0 : MarketAnalyzer :=
  { minProfitThreshold := 1/2, maxSlippage := 3/10, tradeSizeUsd := 1000,
    gasCostSol := 1/1000, solPriceUsd := 150 }

/-- Concrete quote on venue Alpha: its bid (103) exceeds venue Beta's
ask (101), the sell-branch situation of the analyzer. -/
def quoteAlpha : PriceData :=
  { dex := "Alpha", pair := "SOL/USDC", bid := 103, ask := 104,
    last := none, timestamp := 0 }

/-- Concrete quote on venue Beta. -/
def quoteBeta : PriceData :=
  { dex := "Beta", pair := "SOL/USDC", bid := 100, ask := 101,
    last := none, timestamp := 0 }

/-- Concrete market data with one pair quoted on the two venues. -/
def marketSell : List (String × List PriceData) :=
  [("SOL/USDC", [quoteAlpha, quoteBeta])]

/-- C2 counterexample: on a concrete market where `quotes[i].bid (103) >
quotes[j].ask (101)` with both quotes fresh and the profit gates passing,
`findArbitrageOpportunities` emits no opportunity whose `direction` is
`sell`; the opportunity it emits for that venue pair carries the swapped
venues but `direction = buy`. -/
theorem claim2_counterexample :
    (¬ ∃ o ∈ findArbitrageOpportunities analyzer0 1000 marketSell,
        o.direction = Direction.sell)
    ∧ ∃ o ∈ findArbitrageOpportunities analyzer0 1000 marketSell,
        o.sourceDex = "Beta" ∧ o.targetDex = "Alpha"
          ∧ o.direction = Direction.buy := by
  constructor
  · simp only [findArbitrageOpportunities, marketSell, analyzer0, quoteAlpha,
      quoteBeta, analyzePair, allPairs, checkPair, sortByProfitDesc,
      insertByProfit, List.flatMap, List.map, List.foldr]
    norm_num [insertByProfit]
    decide
  · simp only [findArbitrageOpportunities, marketSell, analyzer0, quoteAlpha,
      quoteBeta, analyzePair, allPairs, checkPair, sortByProfitDesc,
      insertByProfit, List.flatMap, List.map, List.foldr]
    norm_num [insertByProfit]

/-- C2 (amended): for every instrument with fresh quotes from a venue pair
`(i, j)` where `quotes[i].bid > quotes[j].ask` and the profit-percentage
and estimated-profit gates pass, `findArbitrageOpportunities` emits an
Opportunity for that pair with i and j swapped (source venue and price
taken from `quotes[j]`, target from `quotes[i]`), but with direction
field `buy`, not `sell`. -/
theorem claim2_amended (a : MarketAnalyzer) (now : ℕ)
    (data : List (String × List PriceData)) (pair : String)
    (arr : List PriceData) (dexA dexB : PriceData)
    (hdata : (pair, arr) ∈ data) (hpair : (dexA, dexB) ∈ allPairs arr)
    (hfA : (now : ℤ) - (dexA.timestamp : ℤ) ≤ 30000)
    (hfB : (now : ℤ) - (dexB.timestamp : ℤ) ≤ 30000)
    (hspread : dexB.ask < dexA.bid)
    (hpct : a.minProfitThreshold ≤ (dexA.bid - dexB.ask) / dexB.ask * 100)
    (hest : 0 < (dexA.bid - dexB.ask) * (a.tradeSizeUsd / dexB.ask)
        - a.gasCostSol * a.solPriceUsd) :
    ∃ o ∈ findArbitrageOpportunities a now data,
      o.sourceDex = dexB.dex ∧ o.targetDex = dexA.dex
        ∧ o.sourcePrice = dexB.ask ∧ o.targetPrice = dexA.bid
        ∧ o.direction = Direction.buy := by
  have hmem :
      ({ sourceDex := dexB.dex, targetDex := dexA.dex, pair := pair,
         profitPercentage := (dexA.bid - dexB.ask) / dexB.ask * 100,
         estimatedProfit := ((dexA.bid - dexB.ask) * (a.tradeSizeUsd / dexB.ask)
           - a.gasCostSol * a.solPriceUsd),
         sourcePrice := dexB.ask, targetPrice := dexA.bid,
         direction := .buy, timestamp := now,
         tradeSize := a.tradeSizeUsd / dexB.ask } : ArbitrageOpportunity)
        ∈ findArbitrageOpportunities a now data := by
    apply mem_find_of_mem_checkPair hdata hpair
    simp only [checkPair]
    rw [if_neg (by omega)]
    rw [List.mem_append]
    right
    rw [if_pos hspread, if_pos ⟨hpct, hest⟩]
    exact List.mem_singleton_self _
  exact ⟨_, hmem, rfl, rfl, rfl, rfl, rfl⟩

/-- C2 witness: the amended claim applied to the concrete fixture market. -/
theorem claim2_witness :
    (("SOL/USDC", [quoteAlpha, quoteBeta]) ∈ marketSell
      ∧ (quoteAlpha, quoteBeta) ∈ allPairs [quoteAlpha, quoteBeta]
      ∧ (1000 : ℤ) - (quoteAlpha.timestamp : ℤ) ≤ 30000
      ∧ (1000 : ℤ) - (quoteBeta.timestamp : ℤ) ≤ 30000
      ∧ quoteBeta.ask < quoteAlpha.bid
      ∧ analyzer0.minProfitThreshold
          ≤ (quoteAlpha.bid - quoteBeta.ask) / quoteBeta.ask * 100
      ∧ 0 < (quoteAlpha.bid - quoteBeta.ask)
          * (analyzer0.tradeSizeUsd / quoteBeta.ask)
          - analyzer0.gasCostSol * analyzer0.solPriceUsd)
    ∧ ∃ o ∈ findArbitrageOpportunities analyzer0 1000 marketSell,
        o.sourceDex = quoteBeta.dex ∧ o.targetDex = quoteAlpha.dex
          ∧ o.sourcePrice = quoteBeta.ask ∧ o.targetPrice = quoteAlpha.bid
          ∧ o.direction = Direction.buy := by
  refine ⟨⟨?_, ?_, ?_, ?_, ?_, ?_, ?_⟩, ?_⟩
  · rw [marketSell]; exact List.mem_cons_self ..
  · simp [allPairs]
  · norm_num [quoteAlpha]
  · norm_num [quoteBeta]
  · norm_num [quoteAlpha, quoteBeta]
  · norm_num [analyzer0, quoteAlpha, quoteBeta]
  · norm_num [analyzer0, quoteAlpha, quoteBeta]
  · exact claim2_amended analyzer0 1000 marketSell "SOL/USDC"
      [quoteAlpha, quoteBeta] quoteAlpha quoteBeta
      (by rw [marketSell]; exact List.mem_cons_self ..)
      (by simp [allPairs])
      (by norm_num [quoteAlpha])
      (by norm_num [quoteBeta])
      (by norm_num [quoteAlpha, quoteBeta])
      (by norm_num [analyzer0, quoteAlpha, quoteBeta])
      (by norm_num [analyzer0, quoteAlpha, quoteBeta])

/-- C5 counterexample: with identical market-data input, two detection
calls whose ambient `Date.now()` readings differ (1000 versus 2000, both
leaving every quote fresh) return different opportunity lists, because
the emitted opportunities carry `timestamp := now`; detection therefore
depends on the ambient clock reading beyond its market-data input. -/
theorem claim5_counterexample :
    findArbitrageOpportunities analyzer0 1000 marketSell
      ≠ findArbitrageOpportunities analyzer0 2000 marketSell := by
  simp only [findArbitrageOpportunities, marketSell, analyzer0, quoteAlpha,
    quoteBeta, analyzePair, allPairs, checkPair, sortByProfitDesc,
    insertByProfit, List.flatMap, List.map, List.foldr]
  norm_num [insertByProfit, ArbitrageOpportunity.mk.injEq]

/-- C5 (amended): detection is a pure function of the analyzer
configuration, the ambient clock reading and the market data; the clock
enters only through the 30 second freshness guards and the `timestamp`
field of the output, so two calls on equal market data whose clock
readings classify every quote in the same way return lists that agree
except for the output `timestamp` field; no analyzer state is mutated. -/
theorem claim5_amended (a : MarketAnalyzer)
    (data : List (String × List PriceData)) (now1 now2 : ℕ)
    (h : ∀ pr ∈ data, ∀ q ∈ pr.2,
      ((30000 : ℤ) < (now1 : ℤ) - (q.timestamp : ℤ)
        ↔ (30000 : ℤ) < (now2 : ℤ) - (q.timestamp : ℤ))) :
    (findArbitrageOpportunities a now1 data).map stripTimestamp
      = (findArbitrageOpportunities a now2 data).map stripTimestamp := by
  rw [findArbitrageOpportunities, findArbitrageOpportunities,
    sortByProfitDesc_map_strip, sortByProfitDesc_map_strip]
  apply congrArg sortByProfitDesc
  rw [List.map_flatMap, List.map_flatMap]
  apply flatMapCongrMem
  intro pr hpr
  rw [analyzePair, analyzePair]
  by_cases hlen : pr.2.length < 2
  · rw [if_pos hlen, if_pos hlen]
  · rw [if_neg hlen, if_neg hlen]
    rw [List.map_flatMap, List.map_flatMap]
    apply flatMapCongrMem
    intro q hq
    have hmem := mem_of_mem_allPairs hq
    exact checkPair_map_strip a now1 now2 pr.1 q.1 q.2
      (h pr hpr q.1 hmem.1) (h pr hpr q.2 hmem.2)

/-- C5 witness: the amended claim applied to the fixture market at clock
readings 1000 and 2000 (both classify every quote as fresh). -/
theorem claim5_witness :
    (∀ pr ∈ marketSell, ∀ q ∈ pr.2,
      ((30000 : ℤ) < (1000 : ℤ) - (q.timestamp : ℤ)
        ↔ (30000 : ℤ) < (2000 : ℤ) - (q.timestamp : ℤ)))
    ∧ (findArbitrageOpportunities analyzer0 1000 marketSell).map stripTimestamp
      = (findArbitrageOpportunities analyzer0 2000 marketSell).map stripTimestamp := by
  have hfix : ∀ pr ∈ marketSell, ∀ q ∈ pr.2,
      ((30000 : ℤ) < (1000 : ℤ) - (q.timestamp : ℤ)
        ↔ (30000 : ℤ) < (2000 : ℤ) - (q.timestamp : ℤ)) := by
    intro pr hpr q hq
    simp only [marketSell, List.mem_singleton] at hpr
    subst hpr
    simp only [quoteAlpha, quoteBeta, List.mem_cons,
      List.not_mem_nil, or_false] at hq
    rcases hq with rfl | rfl <;> norm_num
  exact ⟨hfix, claim5_amended analyzer0 marketSell 1000 2000 hfix⟩

/-- C8: every Opportunity returned by `findArbitrageOpportunities`
originates from a venue pair whose two quotes are both within the 30
second max-age at detection time; a pair with either quote older
contributes no opportunity regardless of its price spread. -/
theorem claim8_freshness (a : MarketAnalyzer) (now : ℕ)
    (data : List (String × List PriceData)) (o : ArbitrageOpportunity)
    (h : o ∈ findArbitrageOpportunities a now data) :
    ∃ pair arr dexA dexB, (pair, arr) ∈ data ∧ (dexA, dexB) ∈ allPairs arr
      ∧ o ∈ checkPair a now pair dexA dexB
      ∧ (now : ℤ) - (dexA.timestamp : ℤ) ≤ 30000
      ∧ (now : ℤ) - (dexB.timestamp : ℤ) ≤ 30000 := by
  rw [findArbitrageOpportunities, mem_sortByProfitDesc, List.mem_flatMap] at h
  obtain ⟨⟨pair, arr⟩, hdata, h⟩ := h
  have h2 : o ∈ analyzePair a now pair arr := h
  rw [analyzePair] at h2
  by_cases hlen : arr.length < 2
  · rw [if_pos hlen] at h2
    simp at h2
  · rw [if_neg hlen, List.mem_flatMap] at h2
    obtain ⟨⟨dexA, dexB⟩, hpair, ho⟩ := h2
    have hfresh : ¬ ((30000 : ℤ) < (now : ℤ) - (dexA.timestamp : ℤ)
        ∨ (30000 : ℤ) < (now : ℤ) - (dexB.timestamp : ℤ)) := by
      intro hg
      simp only [checkPair] at ho
      rw [if_pos hg] at ho
      simp at ho
    push_neg at hfresh
    exact ⟨pair, arr, dexA, dexB, hdata, hpair, ho, hfresh.1, hfresh.2⟩

/-- The opportunity the analyzer emits on the fixture market at clock
reading 1000. -/
def oppFixture : ArbitrageOpportunity :=
  { sourceDex := "Beta", targetDex := "Alpha", pair := "SOL/USDC",
    profitPercentage := 200/101, estimatedProfit := 39697/2020,
    sourcePrice := 101, targetPrice := 103, direction := .buy,
    timestamp := 1000, tradeSize := 1000/101 }

/-- C8 witness: the freshness theorem applied to the concrete opportunity
emitted on the fixture market. -/
theorem claim8_witness :
    oppFixture ∈ findArbitrageOpportunities analyzer0 1000 marketSell
    ∧ ∃ pair arr dexA dexB, (pair, arr) ∈ marketSell
        ∧ (dexA, dexB) ∈ allPairs arr
        ∧ oppFixture ∈ checkPair analyzer0 1000 pair dexA dexB
        ∧ (1000 : ℤ) - (dexA.timestamp : ℤ) ≤ 30000
        ∧ (1000 : ℤ) - (dexB.timestamp : ℤ) ≤ 30000 := by
  have hmem : oppFixture ∈ findArbitrageOpportunities analyzer0 1000 marketSell := by
    simp only [findArbitrageOpportunities, marketSell, analyzer0, quoteAlpha,
      quoteBeta, analyzePair, allPairs, checkPair, sortByProfitDesc,
      insertByProfit, List.flatMap, List.map, List.foldr, oppFixture]
    norm_num [insertByProfit]
  exact ⟨hmem, claim8_freshness analyzer0 1000 marketSell oppFixture hmem⟩

/-! ## MarketDataCollector (`market-collector.ts`)

`collectData` mutates the per-pair arrays stored in `this.priceData` in
place (`pairData[existingIndex] = data` / `pairData.push(data)`), and
`getPriceData` returns `new Map(this.priceData)`: a fresh top-level map
holding the SAME array objects.  JS array object identity is modelled by
an index (`ℕ`) into a `store`; a published snapshot is the association
list of pair names to array indices, and `derefSnap` reads the arrays a
snapshot refers to out of a store. -/

/-- One successful venue fetch of a `collectData` cycle (fetches that
return `null` are skipped by the source and are simply absent here). -/
structure FetchResult where
  dex : String
  pair : String
  bid : ℚ
  ask : ℚ
  last : Option ℚ
  timestamp : ℕ
deriving DecidableEq

/-- Collector state: `store` holds the array objects, `priceData` is the
`Map<string, PriceData[]>` with arrays replaced by their store index. -/
structure CollectorState where
  store : List (List PriceData)
  priceData : List (String × ℕ)
deriving DecidableEq

/-- The `PriceData` record built from a fetch in `collectData`. -/
def toPriceData (f : FetchResult) : PriceData :=
  { dex := f.dex, pair := f.pair, bid := f.bid, ask := f.ask,
    last := f.last, timestamp := f.timestamp }

/-- `findIndex(p => p.dex === dexName)` followed by in-place replacement
of the first match, or `push` when absent. -/
def updateDexEntry (d : PriceData) : List PriceData → List PriceData
  | [] => [d]
  | p :: ps => if p.dex = d.dex then d :: ps else p :: updateDexEntry d ps

/-- `this.priceData.get(pairName)` on the association list. -/
def lookupRef (pair : String) : List (String × ℕ) → Option ℕ
  | [] => none
  | (k, r) :: rest => if k = pair then some r else lookupRef pair rest

/-- Processing of one fetched quote inside `collectData`: mutate the
existing array of the pair in place, or allocate a fresh array holding
just this quote and bind the pair name to it. -/
def collectStep (s : CollectorState) (f : FetchResult) : CollectorState :=
  let d := toPriceData f
  match lookupRef f.pair s.priceData with
  | some r =>
    { s with store := s.store.set r (updateDexEntry d (s.store.getD r [])) }
  | none =>
    { store := s.store ++ [updateDexEntry d []],
      priceData := s.priceData ++ [(f.pair, s.store.length)] }

/-- `MarketDataCollector.collectData`: fold the fetched quotes of one
poll cycle into the collector state (subscriber notification happens
after the whole batch). -/
def collectData (s : CollectorState) (batch : List FetchResult) : CollectorState :=
  batch.foldl collectStep s

/-- `MarketDataCollector.getPriceData`: `new Map(this.priceData)` — a
fresh top-level map carrying the same array references, which is what a
subscriber receives at the end of a poll cycle. -/
def getPriceData (s : CollectorState) : List (String × ℕ) := s.priceData

/-- The observable contents of a published snapshot: each pair name with
the current contents of the array object it refers to. -/
def derefSnap (store : List (List PriceData)) (snap : List (String × ℕ)) :
    List (String × List PriceData) :=
  snap.map (fun pr => (pr.1, store.getD pr.2 []))

/-- Empty collector, the state at construction time. -/
def collectorEmpty : CollectorState := { store := [], priceData := [] }

/-- Quote fetched in the first poll cycle. -/
def fetchCycle1 : FetchResult :=
  { dex := "Serum", pair := "SOL/USDC", bid := 100, ask := 101,
    last := none, timestamp := 0 }

/-- Quote fetched for the same venue and pair in the second poll cycle. -/
def fetchCycle2 : FetchResult :=
  { dex := "Serum", pair := "SOL/USDC", bid := 200, ask := 201,
    last := none, timestamp := 5000 }

/-- C3 counterexample: the snapshot published after the first poll cycle
is not immutable — after the second cycle collects a new quote for the
same (venue, pair), the contents of the previously published snapshot
have changed (its per-pair array is shared with the collector and is
mutated in place), so the published map is not a deep copy of the data
at publication time. -/
theorem claim3_counterexample :
    derefSnap (collectData (collectData collectorEmpty [fetchCycle1]) [fetchCycle2]).store
        (getPriceData (collectData collectorEmpty [fetchCycle1]))
      ≠ derefSnap (collectData collectorEmpty [fetchCycle1]).store
        (getPriceData (collectData collectorEmpty [fetchCycle1])) := by
  simp only [collectData, collectStep, collectorEmpty, fetchCycle1, fetchCycle2,
    toPriceData, lookupRef, updateDexEntry, getPriceData, derefSnap,
    List.foldl, List.map, List.getD, List.set]
  norm_num [updateDexEntry, PriceData.mk.injEq, Prod.mk.injEq]

/-- Collection never rebinds an existing pair name: it only appends
bindings for pair names seen for the first time. -/
theorem collectData_priceData_append (s : CollectorState) (batch : List FetchResult) :
    ∃ rest, (collectData s batch).priceData = s.priceData ++ rest := by
  induction batch generalizing s with
  | nil => exact ⟨[], (List.append_nil _).symm⟩
  | cons f fs ih =>
    obtain ⟨rest1, h1⟩ := ih (collectStep s f)
    have h0 : ∃ rest0, (collectStep s f).priceData = s.priceData ++ rest0 := by
      rw [collectStep]
      cases hlk : lookupRef f.pair s.priceData with
      | some r => exact ⟨[], by simp⟩
      | none => exact ⟨[(f.pair, s.store.length)], by simp⟩
    obtain ⟨rest0, h00⟩ := h0
    exact ⟨rest0 ++ rest1, by
      show (collectData (collectStep s f) fs).priceData = _
      rw [h1, h00, List.append_assoc]⟩

theorem derefSnap_take (store : List (List PriceData))
    (l1 l2 : List (String × ℕ)) :
    (derefSnap store (l1 ++ l2)).take l1.length = derefSnap store l1 := by
  rw [derefSnap, derefSnap, List.map_append]
  rw [show l1.length = (l1.map (fun pr => (pr.1, store.getD pr.2 []))).length from
    (List.length_map _ _).symm]
  exact List.take_left _ _

/-- C3 (amended): a published snapshot is a fresh top-level map whose
per-pair arrays are shared with the collector; later collection cycles
only append new pair bindings and mutate the shared arrays in place, so
the contents of an earlier published snapshot always equal the CURRENT
collector data for its pairs (the prefix of the newest snapshot), not
the data at publication time. -/
theorem claim3_amended (s : CollectorState) (batch : List FetchResult) :
    ∃ rest, (collectData s batch).priceData = getPriceData s ++ rest
      ∧ derefSnap (collectData s batch).store (getPriceData s)
        = (derefSnap (collectData s batch).store
            (getPriceData (collectData s batch))).take (getPriceData s).length := by
  obtain ⟨rest, hrest⟩ := collectData_priceData_append s batch
  refine ⟨rest, hrest, ?_⟩
  rw [getPriceData, getPriceData, hrest]
  exact (derefSnap_take _ _ _).symm

structure ArbitrageDetectorConfig where
  minProfitThreshold : ℚ
  maxSlippage : ℚ
  tradeSizeUsd : ℚ
  maxConcurrentTrades : ℕ
  cooldownMs : ℕ
  gasMultiplier : ℚ
deriving DecidableEq

structure ExecutableArbitrageOpportunity extends ArbitrageOpportunity where
  id : String
  status : OppStatus
  executionTimestamp : Option ℕ
  executionTxId : Option String
  actualProfit : Option ℚ
  error : Option String
deriving DecidableEq

structure DetectorState where
  isRunning : Bool
  config : ArbitrageDetectorConfig
  detected : List (String × ExecutableArbitrageOpportunity)
  lastExecutionTime : ℕ
  activeExecutions : ℕ
deriving DecidableEq

def directionString : Direction → String
  | .buy => "buy"
  | .sell => "sell"

def generateOpportunityId (o : ArbitrageOpportunity) : String :=
  o.sourceDex ++ "-" ++ o.targetDex ++ "-" ++ o.pair ++ "-"
    ++ directionString o.direction ++ "-" ++ toString o.timestamp

def lookupEntry (id : String) :
    List (String × ExecutableArbitrageOpportunity) →
      Option ExecutableArbitrageOpportunity
  | [] => none
  | (k, e) :: rest => if k = id then some e else lookupEntry id rest

def updateEntry (tbl : List (String × ExecutableArbitrageOpportunity))
    (id : String)
    (f : ExecutableArbitrageOpportunity → ExecutableArbitrageOpportunity) :
    List (String × ExecutableArbitrageOpportunity) :=
  tbl.map (fun ke => if ke.1 = id then (ke.1, f ke.2) else ke)

def tableKeys (tbl : List (String × ExecutableArbitrageOpportunity)) :
    List String :=
  tbl.map Prod.fst

def admitGates (d : DetectorState) (now : ℕ)
    (o : ExecutableArbitrageOpportunity) : Bool :=
  d.isRunning
    && decide (d.activeExecutions < d.config.maxConcurrentTrades)
    && !decide ((now : ℤ) - (d.lastExecutionTime : ℤ) < (d.config.cooldownMs : ℤ))
    && !decide (o.profitPercentage < d.config.minProfitThreshold)

def startExecution (d : DetectorState) (now : ℕ) (id : String) : DetectorState :=
  { d with
    detected := updateEntry d.detected id (fun e =>
      { e with status := .executing, executionTimestamp := some now }),
    lastExecutionTime := now,
    activeExecutions := d.activeExecutions + 1 }

def evaluateForExecution (d : DetectorState) (now : ℕ)
    (o : ExecutableArbitrageOpportunity) : DetectorState × Bool :=
  if admitGates d now o then (startExecution d now o.id, true) else (d, false)

inductive ExecOutcome where
  | success (txNow : ℕ) (randomFactor : ℚ)
  | failure (message : String)
deriving DecidableEq

def finishEntry (outcome : ExecOutcome)
    (e : ExecutableArbitrageOpportunity) : ExecutableArbitrageOpportunity :=
  match outcome with
  | .success txNow factor =>
    { e with status := .completed,
             executionTxId := some ("simulated-tx-" ++ toString txNow),
             actualProfit := some (e.estimatedProfit * factor) }
  | .failure msg => { e with status := .failed, error := some msg }

def executeOpportunity (d : DetectorState) (now : ℕ) (id : String)
    (outcome : ExecOutcome) : DetectorState :=
  let d1 := startExecution d now id
  let d2 := { d1 with detected := updateEntry d1.detected id (finishEntry outcome) }
  { d2 with activeExecutions := d2.activeExecutions - 1 }

def mkPendingEntry (o : ArbitrageOpportunity) (id : String) :
    ExecutableArbitrageOpportunity :=
  { toArbitrageOpportunity := o, id := id, status := .pending,
    executionTimestamp := none, executionTxId := none,
    actualProfit := none, error := none }

def processOne (d : DetectorState) (now : ℕ) (o : ArbitrageOpportunity) :
    DetectorState :=
  let id := generateOpportunityId o
  match lookupEntry id d.detected with
  | some _ => d
  | none =>
    let eo := mkPendingEntry o id
    let d1 := { d with detected := d.detected ++ [(id, eo)] }
    (evaluateForExecution d1 now eo).1

def cleanupOldOpportunities (now : ℕ)
    (tbl : List (String × ExecutableArbitrageOpportunity)) :
    List (String × ExecutableArbitrageOpportunity) :=
  tbl.filter (fun ke => !decide ((300000 : ℤ) < (now : ℤ) - (ke.2.timestamp : ℤ)))

def handleOpportunities (d : DetectorState) (now : ℕ)
    (ops : List ArbitrageOpportunity) : DetectorState :=
  if d.isRunning then
    let d1 := ops.foldl (fun acc o => processOne acc now o) d
    { d1 with detected := cleanupOldOpportunities now d1.detected }
  else d

theorem admitGates_iff (d : DetectorState) (now : ℕ)
    (o : ExecutableArbitrageOpportunity) :
    admitGates d now o = true
      ↔ (d.isRunning = true
          ∧ d.activeExecutions < d.config.maxConcurrentTrades
          ∧ (d.config.cooldownMs : ℤ) ≤ (now : ℤ) - (d.lastExecutionTime : ℤ)
          ∧ d.config.minProfitThreshold ≤ o.profitPercentage) := by
  rw [admitGates]
  simp only [Bool.and_eq_true, decide_eq_true_eq, Bool.not_eq_true',
    decide_eq_false_iff_not, not_lt]
  constructor
  · rintro ⟨⟨⟨h1, h2⟩, h3⟩, h4⟩
    exact ⟨h1, h2, h3, h4⟩
  · rintro ⟨h1, h2, h3, h4⟩
    exact ⟨⟨⟨h1, h2⟩, h3⟩, h4⟩

/-- C6: `evaluateForExecution` starts an execution exactly when every
admission gate holds — the detector is running, `activeExecutions <
maxConcurrentTrades` (so admission is refused at `activeExecutions =
maxConcurrentTrades`, third conjunct), `now - lastExecutionTime ≥
cooldownMs`, and `profitPercentage ≥ minProfitThreshold`; when any gate
fails, no execution begins and the detector state is unchanged. -/
theorem claim6_admission (d : DetectorState) (now : ℕ)
    (o : ExecutableArbitrageOpportunity) :
    ((evaluateForExecution d now o).2 = true
      ↔ (d.isRunning = true
          ∧ d.activeExecutions < d.config.maxConcurrentTrades
          ∧ (d.config.cooldownMs : ℤ) ≤ (now : ℤ) - (d.lastExecutionTime : ℤ)
          ∧ d.config.minProfitThreshold ≤ o.profitPercentage))
    ∧ ((evaluateForExecution d now o).2 = false
        → (evaluateForExecution d now o).1 = d)
    ∧ (d.activeExecutions = d.config.maxConcurrentTrades
        → (evaluateForExecution d now o).2 = false) := by
  cases hb : admitGates d now o with
  | true =>
    have hred : evaluateForExecution d now o = (startExecution d now o.id, true) := by
      rw [evaluateForExecution, if_pos hb]
    refine ⟨?_, ?_, ?_⟩
    · simp only [hred, true_iff]
      exact (admitGates_iff d now o).mp hb
    · simp [hred]
    · intro heq
      have hconj := (admitGates_iff d now o).mp hb
      exact absurd hconj.2.1 (by omega)
  | false =>
    have hred : evaluateForExecution d now o = (d, false) := by
      rw [evaluateForExecution, if_neg (by simp [hb])]
    refine ⟨?_, ?_, ?_⟩
    · simp only [hred, Bool.false_eq_true, false_iff]
      intro hconj
      have := (admitGates_iff d now o).mpr hconj
      rw [hb] at this
      simp at this
    · simp [hred]
    · simp [hred]

/-- C9: for every execution started under the admission bound, whether the
outcome is success or failure, `activeExecutions` is incremented exactly
once at the start and decremented exactly once at the end, the counter
returns to its pre-admission value, and it stays at or below
`maxConcurrentTrades` at every step (it is a `ℕ`, so it is never
negative). -/
theorem claim9_counter (d : DetectorState) (now : ℕ) (id : String)
    (outcome : ExecOutcome)
    (h : d.activeExecutions < d.config.maxConcurrentTrades) :
    (startExecution d now id).activeExecutions = d.activeExecutions + 1
    ∧ (executeOpportunity d now id outcome).activeExecutions = d.activeExecutions
    ∧ (startExecution d now id).activeExecutions ≤ d.config.maxConcurrentTrades
    ∧ (executeOpportunity d now id outcome).activeExecutions
        ≤ d.config.maxConcurrentTrades
    ∧ (executeOpportunity d now id outcome).config = d.config := by
  refine ⟨rfl, ?_, ?_, ?_, rfl⟩
  · show d.activeExecutions + 1 - 1 = d.activeExecutions
    omega
  · show d.activeExecutions + 1 ≤ _
    omega
  · show d.activeExecutions + 1 - 1 ≤ _
    omega

theorem lookupEntry_append_left {id : String} {e : ExecutableArbitrageOpportunity}
    {l1 l2 : List (String × ExecutableArbitrageOpportunity)}
    (h : lookupEntry id l1 = some e) :
    lookupEntry id (l1 ++ l2) = some e := by
  induction l1 with
  | nil => simp [lookupEntry] at h
  | cons ke rest ih =>
    obtain ⟨k, v⟩ := ke
    rw [lookupEntry] at h
    rw [List.cons_append, lookupEntry]
    by_cases hk : k = id
    · rw [if_pos hk] at h ⊢
      exact h
    · rw [if_neg hk] at h ⊢
      exact ih h

theorem lookupEntry_updateEntry_ne {id other : String}
    {tbl : List (String × ExecutableArbitrageOpportunity)}
    {f : ExecutableArbitrageOpportunity → ExecutableArbitrageOpportunity}
    (h : other ≠ id) :
    lookupEntry id (updateEntry tbl other f) = lookupEntry id tbl := by
  induction tbl with
  | nil => rfl
  | cons ke rest ih =>
    obtain ⟨k, v⟩ := ke
    rw [updateEntry, List.map_cons]
    by_cases hk : k = other
    · rw [if_pos hk]
      rw [lookupEntry, lookupEntry, if_neg (by rw [hk]; exact h),
        if_neg (by rw [hk]; exact h)]
      exact ih
    · rw [if_neg hk]
      rw [lookupEntry, lookupEntry]
      by_cases hki : k = id
      · rw [if_pos hki, if_pos hki]
      · rw [if_neg hki, if_neg hki]
        exact ih

theorem lookupEntry_mem {id : String} {e : ExecutableArbitrageOpportunity}
    {tbl : List (String × ExecutableArbitrageOpportunity)}
    (h : lookupEntry id tbl = some e) : (id, e) ∈ tbl := by
  induction tbl with
  | nil => simp [lookupEntry] at h
  | cons ke rest ih =>
    obtain ⟨k, v⟩ := ke
    rw [lookupEntry] at h
    by_cases hk : k = id
    · rw [if_pos hk] at h
      obtain rfl := Option.some.injEq .. ▸ h
      exact hk ▸ List.mem_cons_self ..
    · rw [if_neg hk] at h
      exact List.mem_cons_of_mem _ (ih h)

theorem lookupEntry_filter {id : String} {e : ExecutableArbitrageOpportunity}
    {tbl : List (String × ExecutableArbitrageOpportunity)}
    {p : String × ExecutableArbitrageOpportunity → Bool}
    (h : lookupEntry id tbl = some e) (hp : p (id, e) = true) :
    lookupEntry id (tbl.filter p) = some e := by
  induction tbl with
  | nil => simp [lookupEntry] at h
  | cons ke rest ih =>
    obtain ⟨k, v⟩ := ke
    rw [lookupEntry] at h
    rw [List.filter_cons]
    by_cases hk : k = id
    · rw [if_pos hk] at h
      obtain rfl := Option.some.injEq .. ▸ h
      subst hk
      rw [if_pos (by exact hp)]
      rw [lookupEntry, if_pos rfl]
    · rw [if_neg hk] at h
      by_cases hpk : p (k, v) = true
      · rw [if_pos hpk, lookupEntry, if_neg hk]
        exact ih h
      · rw [if_neg hpk]
        exact ih h

theorem lookupEntry_eq_none {id : String}
    {tbl : List (String × ExecutableArbitrageOpportunity)}
    (h : lookupEntry id tbl = none) : id ∉ tableKeys tbl := by
  induction tbl with
  | nil => simp [tableKeys]
  | cons ke rest ih =>
    obtain ⟨k, v⟩ := ke
    rw [lookupEntry] at h
    by_cases hk : k = id
    · rw [if_pos hk] at h
      cases h
    · rw [if_neg hk] at h
      rw [tableKeys, List.map_cons]
      simp only [List.mem_cons]
      rintro (rfl | hmem)
      · exact hk rfl
      · exact ih h hmem

theorem tableKeys_updateEntry (tbl : List (String × ExecutableArbitrageOpportunity))
    (id : String)
    (f : ExecutableArbitrageOpportunity → ExecutableArbitrageOpportunity) :
    tableKeys (updateEntry tbl id f) = tableKeys tbl := by
  induction tbl with
  | nil => rfl
  | cons ke rest ih =>
    simp only [updateEntry, tableKeys, List.map_cons] at ih ⊢
    split <;> simp [ih]

theorem tableKeys_append (l1 l2 : List (String × ExecutableArbitrageOpportunity)) :
    tableKeys (l1 ++ l2) = tableKeys l1 ++ tableKeys l2 :=
  List.map_append ..

theorem processOne_isRunning (d : DetectorState) (now : ℕ)
    (o : ArbitrageOpportunity) :
    (processOne d now o).isRunning = d.isRunning := by
  rw [processOne]
  cases hlk : lookupEntry (generateOpportunityId o) d.detected with
  | some e => rfl
  | none =>
    simp only [evaluateForExecution]
    split
    · rfl
    · rfl

theorem processOne_lookup (d : DetectorState) (now : ℕ)
    (o : ArbitrageOpportunity) (id0 : String)
    (e0 : ExecutableArbitrageOpportunity)
    (h : lookupEntry id0 d.detected = some e0) :
    lookupEntry id0 (processOne d now o).detected = some e0 := by
  rw [processOne]
  cases hlk : lookupEntry (generateOpportunityId o) d.detected with
  | some e => exact h
  | none =>
    have hne : generateOpportunityId o ≠ id0 := by
      intro heq
      rw [heq, h] at hlk
      cases hlk
    simp only [evaluateForExecution]
    split
    · rw [startExecution]
      dsimp only
      rw [show (mkPendingEntry o (generateOpportunityId o)).id
          = generateOpportunityId o from rfl]
      rw [lookupEntry_updateEntry_ne hne]
      exact lookupEntry_append_left h
    · exact lookupEntry_append_left h

theorem processOne_nodup (d : DetectorState) (now : ℕ)
    (o : ArbitrageOpportunity)
    (h : (tableKeys d.detected).Nodup) :
    (tableKeys (processOne d now o).detected).Nodup := by
  rw [processOne]
  cases hlk : lookupEntry (generateOpportunityId o) d.detected with
  | some e => exact h
  | none =>
    have hnotin : generateOpportunityId o ∉ tableKeys d.detected :=
      lookupEntry_eq_none hlk
    have happ : (tableKeys (d.detected
        ++ [(generateOpportunityId o, mkPendingEntry o (generateOpportunityId o))])).Nodup := by
      rw [tableKeys_append]
      rw [List.nodup_append]
      refine ⟨h, List.nodup_singleton _, ?_⟩
      intro a ha hb
      rw [show tableKeys [(generateOpportunityId o,
        mkPendingEntry o (generateOpportunityId o))] = [generateOpportunityId o] from rfl] at hb
      rw [List.mem_singleton] at hb
      subst hb
      exact hnotin ha
    simp only [evaluateForExecution]
    split
    · rw [startExecution]
      dsimp only
      rw [tableKeys_updateEntry]
      exact happ
    · exact happ

theorem foldl_processOne_isRunning (now : ℕ) (ops : List ArbitrageOpportunity)
    (d : DetectorState) :
    (ops.foldl (fun acc o => processOne acc now o) d).isRunning = d.isRunning := by
  induction ops generalizing d with
  | nil => rfl
  | cons o os ih =>
    rw [List.foldl_cons, ih, processOne_isRunning]

theorem foldl_processOne_lookup (now : ℕ) (ops : List ArbitrageOpportunity)
    (d : DetectorState) (id0 : String) (e0 : ExecutableArbitrageOpportunity)
    (h : lookupEntry id0 d.detected = some e0) :
    lookupEntry id0 ((ops.foldl (fun acc o => processOne acc now o) d).detected)
      = some e0 := by
  induction ops generalizing d with
  | nil => exact h
  | cons o os ih =>
    rw [List.foldl_cons]
    exact ih _ (processOne_lookup _ _ _ _ _ h)

theorem foldl_processOne_nodup (now : ℕ) (ops : List ArbitrageOpportunity)
    (d : DetectorState)
    (h : (tableKeys d.detected).Nodup) :
    (tableKeys ((ops.foldl (fun acc o => processOne acc now o) d).detected)).Nodup := by
  induction ops generalizing d with
  | nil => exact h
  | cons o os ih =>
    rw [List.foldl_cons]
    exact ih _ (processOne_nodup _ _ _ h)

theorem tableKeys_cleanup_sublist (now : ℕ)
    (tbl : List (String × ExecutableArbitrageOpportunity)) :
    (tableKeys (cleanupOldOpportunities now tbl)).Sublist (tableKeys tbl) :=
  List.Sublist.map _ (List.filter_sublist _)

/-- C7: ingestion is idempotent with first-seen-wins semantics — an
incoming opportunity whose deterministic id is already stored is ignored
and the whole detector state is unchanged (first conjunct); the table
never holds two entries with the same id (second conjunct); and any
entry present after one `handleOpportunities` call survives a second
call with the same opportunity list completely unchanged, status
included, so reprocessing creates no duplicates and regresses no status
(third conjunct). -/
theorem claim7_core (d : DetectorState) (now : ℕ)
    (ops : List ArbitrageOpportunity) (o : ArbitrageOpportunity)
    (id0 : String) (e0 : ExecutableArbitrageOpportunity)
    (hnd : (tableKeys d.detected).Nodup)
    (ha : (lookupEntry (generateOpportunityId o) d.detected).isSome = true)
    (hc : lookupEntry id0 (handleOpportunities d now ops).detected = some e0) :
    processOne d now o = d
    ∧ (tableKeys (handleOpportunities d now ops).detected).Nodup
    ∧ lookupEntry id0
        (handleOpportunities (handleOpportunities d now ops) now ops).detected
      = some e0 := by
  have parta : processOne d now o = d := by
    rw [processOne]
    cases hlk : lookupEntry (generateOpportunityId o) d.detected with
    | some e => rfl
    | none => rw [hlk] at ha; cases ha
  refine ⟨parta, ?_, ?_⟩
  · rw [handleOpportunities]
    by_cases hrun : d.isRunning = true
    · rw [if_pos hrun]
      exact (tableKeys_cleanup_sublist now _).nodup
        (foldl_processOne_nodup now ops d hnd)
    · rw [if_neg hrun]
      exact hnd
  · by_cases hrun : d.isRunning = true
    · have hrun1 : (handleOpportunities d now ops).isRunning = true := by
        rw [handleOpportunities, if_pos hrun]
        show (ops.foldl (fun acc o => processOne acc now o) d).isRunning = true
        rw [foldl_processOne_isRunning]
        exact hrun
      have hfresh : ((fun ke => !decide ((300000 : ℤ) < (now : ℤ)
          - (ke.2.timestamp : ℤ))) (id0, e0)) = true := by
        rw [handleOpportunities, if_pos hrun] at hc
        have hmem := lookupEntry_mem hc
        have := List.of_mem_filter hmem
        exact this
      rw [handleOpportunities, if_pos hrun1]
      show lookupEntry id0 (cleanupOldOpportunities now _) = some e0
      apply lookupEntry_filter _ hfresh
      exact foldl_processOne_lookup now ops _ id0 e0 hc
    · have hd : handleOpportunities d now ops = d := by
        rw [handleOpportunities, if_neg hrun]
      rw [hd] at hc ⊢
      rw [hd]
      exact hc

/-- Detector configuration with the constructor defaults of the source. -/
def detectorConfig0 : ArbitrageDetectorConfig :=
  { minProfitThreshold := 1/2, maxSlippage := 3/10, tradeSizeUsd := 1000,
    maxConcurrentTrades := 1, cooldownMs := 2000, gasMultiplier := 3/2 }

/-- Concrete opportunity used in the detector and strategy scenarios. -/
def oppForDetector : ArbitrageOpportunity :=
  { sourceDex := "Beta", targetDex := "Alpha", pair := "SOL/USDC",
    profitPercentage := 2, estimatedProfit := 19, sourcePrice := 101,
    targetPrice := 103, direction := .buy, timestamp := 1000, tradeSize := 10 }

/-- The pending registry entry the detector creates for it. -/
def eoForDetector : ExecutableArbitrageOpportunity :=
  mkPendingEntry oppForDetector (generateOpportunityId oppForDetector)

/-- Running detector already holding its single concurrency slot. -/
def detectorBusy : DetectorState :=
  { isRunning := true, config := detectorConfig0, detected := [],
    lastExecutionTime := 0, activeExecutions := 1 }

/-- Running detector with a free concurrency slot. -/
def detectorIdle : DetectorState :=
  { isRunning := true, config := detectorConfig0, detected := [],
    lastExecutionTime := 0, activeExecutions := 0 }

/-- Running detector whose table already holds the opportunity. -/
def detectorSeeded : DetectorState :=
  { isRunning := true, config := detectorConfig0,
    detected := [(generateOpportunityId oppForDetector, eoForDetector)],
    lastExecutionTime := 0, activeExecutions := 0 }

/-- C6 witness: at capacity (`activeExecutions = maxConcurrentTrades = 1`)
admission is refused and the state is unchanged. -/
theorem claim6_witness :
    (evaluateForExecution detectorBusy 5000 eoForDetector).2 = false
    ∧ (evaluateForExecution detectorBusy 5000 eoForDetector).1 = detectorBusy := by
  have t := claim6_admission detectorBusy 5000 eoForDetector
  have h2 : detectorBusy.activeExecutions = detectorBusy.config.maxConcurrentTrades := rfl
  exact ⟨t.2.2 h2, t.2.1 (t.2.2 h2)⟩

/-- C9 witness: the counter theorem at a concrete failed execution. -/
theorem claim9_witness :
    detectorIdle.activeExecutions < detectorIdle.config.maxConcurrentTrades
    ∧ ((startExecution detectorIdle 5000 "x").activeExecutions
          = detectorIdle.activeExecutions + 1
      ∧ (executeOpportunity detectorIdle 5000 "x" (.failure "leg failed")).activeExecutions
          = detectorIdle.activeExecutions
      ∧ (startExecution detectorIdle 5000 "x").activeExecutions
          ≤ detectorIdle.config.maxConcurrentTrades
      ∧ (executeOpportunity detectorIdle 5000 "x" (.failure "leg failed")).activeExecutions
          ≤ detectorIdle.config.maxConcurrentTrades
      ∧ (executeOpportunity detectorIdle 5000 "x" (.failure "leg failed")).config
          = detectorIdle.config) := by
  have hlt : detectorIdle.activeExecutions < detectorIdle.config.maxConcurrentTrades :=
    Nat.zero_lt_one
  exact ⟨hlt, claim9_counter detectorIdle 5000 "x" (.failure "leg failed") hlt⟩

/-- C7 witness: reprocessing a list whose opportunity is already stored
leaves the seeded detector unchanged. -/
theorem claim7_witness :
    ((tableKeys detectorSeeded.detected).Nodup
      ∧ (lookupEntry (generateOpportunityId oppForDetector)
          detectorSeeded.detected).isSome = true
      ∧ lookupEntry (generateOpportunityId oppForDetector)
          (handleOpportunities detectorSeeded 5000 [oppForDetector]).detected
        = some eoForDetector)
    ∧ (processOne detectorSeeded 5000 oppForDetector = detectorSeeded
      ∧ (tableKeys (handleOpportunities detectorSeeded 5000 [oppForDetector]).detected).Nodup
      ∧ lookupEntry (generateOpportunityId oppForDetector)
          (handleOpportunities (handleOpportunities detectorSeeded 5000 [oppForDetector])
            5000 [oppForDetector]).detected
        = some eoForDetector) := by
  have hnd : (tableKeys detectorSeeded.detected).Nodup := List.nodup_singleton _
  have hlookup : lookupEntry (generateOpportunityId oppForDetector)
      detectorSeeded.detected = some eoForDetector := by
    show lookupEntry _ [(generateOpportunityId oppForDetector, eoForDetector)] = _
    rw [lookupEntry, if_pos rfl]
  have ha : (lookupEntry (generateOpportunityId oppForDetector)
      detectorSeeded.detected).isSome = true := by
    rw [hlookup]
    rfl
  have hpo : processOne detectorSeeded 5000 oppForDetector = detectorSeeded := by
    rw [processOne, hlookup]
  have hclean : cleanupOldOpportunities 5000 detectorSeeded.detected
      = detectorSeeded.detected := by
    show List.filter _ [(generateOpportunityId oppForDetector, eoForDetector)] = _
    rw [List.filter_cons]
    norm_num [detectorSeeded, eoForDetector, mkPendingEntry, oppForDetector]
  have hhandle : handleOpportunities detectorSeeded 5000 [oppForDetector]
      = detectorSeeded := by
    rw [handleOpportunities,
      if_pos (show detectorSeeded.isRunning = true from rfl)]
    simp only [List.foldl_cons, List.foldl_nil, hpo]
    rw [hclean]
  have hc : lookupEntry (generateOpportunityId oppForDetector)
      (handleOpportunities detectorSeeded 5000 [oppForDetector]).detected
      = some eoForDetector := by
    rw [hhandle]
    exact hlookup
  exact ⟨⟨hnd, ha, hc⟩,
    claim7_core detectorSeeded 5000 [oppForDetector] oppForDetector
      (generateOpportunityId oppForDetector) eoForDetector hnd ha hc⟩

/-! ## ArbitrageStrategy

`ArbitrageStrategy.handleOpportunity` is registered as a callback on the
detector.  It can only update the strategy's own counters: the detector
never consults the filter result, which is what claim C4 is about. -/

/-- `ArbitrageStrategyConfig` with the constructor defaults applied. -/
structure ArbitrageStrategyConfig where
  minProfitThreshold : ℚ
  maxSlippage : ℚ
  tradeSizeUsd : ℚ
  maxConcurrentTrades : ℕ
  cooldownMs : ℕ
  gasMultiplier : ℚ
  prioritizePairs : List String
  blacklistPairs : List String
  prioritizeDexes : List String
  blacklistDexes : List String
  minTradeIntervalMs : ℕ
  maxDailyTrades : ℕ
deriving DecidableEq

/-- Mutable counters of `ArbitrageStrategy`. -/
structure StrategyState where
  config : ArbitrageStrategyConfig
  dailyTradeCount : ℕ
  lastTradeTime : ℕ
  dailyResetTime : ℕ
deriving DecidableEq

/-- `ArbitrageStrategy.filterOpportunity`: blacklist pair and venue
checks, the threshold re-check, and the two priority soft filters
(`1.5 = 3/2` times the base threshold when priorities are configured and
missed). -/
def filterOpportunity (c : ArbitrageStrategyConfig)
    (o : ExecutableArbitrageOpportunity) : Bool :=
  if c.blacklistPairs.contains o.pair then false
  else if c.blacklistDexes.contains o.sourceDex
      || c.blacklistDexes.contains o.targetDex then false
  else if decide (o.profitPercentage < c.minProfitThreshold) then false
  else if decide (0 < c.prioritizePairs.length)
      && !(c.prioritizePairs.contains o.pair)
      && decide (o.profitPercentage < c.minProfitThreshold * (3/2)) then false
  else if decide (0 < c.prioritizeDexes.length)
      && !(c.prioritizeDexes.contains o.sourceDex
        || c.prioritizeDexes.contains o.targetDex)
      && decide (o.profitPercentage < c.minProfitThreshold * (3/2)) then false
  else true

/-- Next UTC midnight after `now`, the reset time computed by
`resetDailyTradeCount`. -/
def nextUtcMidnight (now : ℕ) : ℕ := (now / 86400000 + 1) * 86400000

/-- `ArbitrageStrategy.checkTradeLimits`: daily reset, daily cap,
minimum trade interval; on success it updates `lastTradeTime` and the
daily counter. -/
def checkTradeLimits (ss : StrategyState) (now : ℕ) : StrategyState × Bool :=
  let ss1 := if decide (ss.dailyResetTime < now) then
      { ss with dailyTradeCount := 0, dailyResetTime := nextUtcMidnight now }
    else ss
  if decide (ss1.config.maxDailyTrades ≤ ss1.dailyTradeCount) then (ss1, false)
  else if decide ((now : ℤ) - (ss1.lastTradeTime : ℤ)
      < (ss1.config.minTradeIntervalMs : ℤ)) then (ss1, false)
  else
    ({ ss1 with lastTradeTime := now, dailyTradeCount := ss1.dailyTradeCount + 1 }, true)

/-- `ArbitrageStrategy.handleOpportunity`: the callback the strategy
registers with the detector.  It returns only the strategy's own new
counter state — nothing it computes flows back into the detector. -/
def strategyHandle (ss : StrategyState) (now : ℕ)
    (o : ExecutableArbitrageOpportunity) : StrategyState :=
  if o.status = .pending then
    if filterOpportunity ss.config o then (checkTradeLimits ss now).1
    else ss
  else ss

/-- One opportunity processed through the detector together with the
strategy callback, exactly as wired in the source: the detector stores
the entry, notifies the callbacks (the strategy handler runs on the
pending entry, and again on the executing entry after admission), and
then runs its own `evaluateForExecution` — which never reads the
strategy's filter verdict. -/
def processOneWith (d : DetectorState) (ss : StrategyState) (now : ℕ)
    (o : ArbitrageOpportunity) : DetectorState × StrategyState :=
  let id := generateOpportunityId o
  match lookupEntry id d.detected with
  | some _ => (d, ss)
  | none =>
    let eo := mkPendingEntry o id
    let d1 := { d with detected := d.detected ++ [(id, eo)] }
    let ss1 := strategyHandle ss now eo
    if admitGates d1 now eo then
      let d2 := startExecution d1 now eo.id
      let eoExec := { eo with status := .executing, executionTimestamp := some now }
      let ss2 := strategyHandle ss1 now eoExec
      (d2, ss2)
    else (d1, ss1)

/-- `handleOpportunities` with the strategy callback threaded through. -/
def handleOpportunitiesWith (d : DetectorState) (ss : StrategyState) (now : ℕ)
    (ops : List ArbitrageOpportunity) : DetectorState × StrategyState :=
  if d.isRunning then
    let st := ops.foldl (fun acc o => processOneWith acc.1 acc.2 now o) (d, ss)
    ({ st.1 with detected := cleanupOldOpportunities now st.1.detected }, st.2)
  else (d, ss)

/-- Strategy configuration blacklisting the fixture pair. -/
def strategyConfig0 : ArbitrageStrategyConfig :=
  { minProfitThreshold := 1/2, maxSlippage := 3/10, tradeSizeUsd := 1000,
    maxConcurrentTrades := 1, cooldownMs := 2000, gasMultiplier := 3/2,
    prioritizePairs := [], blacklistPairs := ["SOL/USDC"],
    prioritizeDexes := [], blacklistDexes := [],
    minTradeIntervalMs := 5000, maxDailyTrades := 100 }

/-- Fresh strategy counters. -/
def strategy0 : StrategyState :=
  { config := strategyConfig0, dailyTradeCount := 0, lastTradeTime := 0,
    dailyResetTime := 86400000 }

/-- C4: the blacklist is not a hard reject.  On a concrete opportunity
whose pair is blacklisted, `filterOpportunity` does return `false`, but
the detector — which never consults the strategy callback's verdict —
still transitions the entry from `pending` to `executing` when its own
gates pass: after the cycle the stored entry has status `executing`. -/
theorem claim4_blacklist_bug :
    filterOpportunity strategyConfig0 eoForDetector = false
    ∧ (lookupEntry (generateOpportunityId oppForDetector)
        (handleOpportunitiesWith detectorIdle strategy0 5000 [oppForDetector]).1.detected).map
        (fun e => e.status)
      = some OppStatus.executing := by
  constructor
  · rw [filterOpportunity]
    rw [if_pos]
    rw [show eoForDetector.pair = "SOL/USDC" from rfl]
    decide
  · simp only [handleOpportunitiesWith, processOneWith, strategyHandle,
      filterOpportunity, checkTradeLimits, admitGates, startExecution,
      updateEntry, cleanupOldOpportunities, lookupEntry, mkPendingEntry,
      detectorIdle, strategy0, strategyConfig0, detectorConfig0,
      oppForDetector,
      List.foldl, List.map, List.filter, List.contains, List.elem]
    norm_num [lookupEntry, List.filter]

/-! ## TransactionExecutor / SwapExecutor / ArbitrageExecutor

Network behaviour (the transaction submission and its confirmation) is
passed in as oracle values/functions; everything else follows `swap.ts`
and the `ArbitrageExecutor` part of the executor module. -/

/-- `TransactionResult` returned by `TransactionExecutor.executeTransaction`. -/
structure TransactionResult where
  success : Bool
  signature : Option String
  error : Option String
  confirmationTime : Option ℕ
  blockHeight : Option ℕ
  fee : Option ℚ
deriving DecidableEq

/-- `SwapInstructionParams` (public keys modelled as strings). -/
structure SwapInstructionParams where
  sourceDex : String
  sourcePool : String
  inputToken : String
  outputToken : String
  inputAmount : ℚ
  minOutputAmount : ℚ
  userSourceTokenAccount : String
  userDestinationTokenAccount : String
deriving DecidableEq

/-- `SwapResult extends TransactionResult` with the swap annotations. -/
structure SwapResult where
  success : Bool
  signature : Option String
  error : Option String
  confirmationTime : Option ℕ
  blockHeight : Option ℕ
  fee : Option ℚ
  inputAmount : Option ℚ
  outputAmount : Option ℚ
  inputToken : Option String
  outputToken : Option String
  dex : Option String
  pool : Option String
deriving DecidableEq

/-- The DEX names for which `createSwapInstruction` can build an
instruction; any other name throws `Unsupported DEX`. -/
def supportedDexes : List String := ["Serum", "Raydium", "Orca"]

/-- `SwapExecutor.executeSwap`.  `txResult` is what
`transactionExecutor.executeTransaction` returned for the built
transaction.  On success the reported `outputAmount` is the estimate
`minOutputAmount * 1.01` derived from the request — not a measured
on-chain amount.  An unsupported DEX makes `createSwapInstruction`
throw, which the `catch` turns into a failed result. -/
def executeSwap (p : SwapInstructionParams) (txResult : TransactionResult) :
    SwapResult :=
  if supportedDexes.contains p.sourceDex then
    if txResult.success then
      { success := txResult.success, signature := txResult.signature,
        error := txResult.error, confirmationTime := txResult.confirmationTime,
        blockHeight := txResult.blockHeight, fee := txResult.fee,
        dex := some p.sourceDex, pool := some p.sourcePool,
        inputToken := some p.inputToken, outputToken := some p.outputToken,
        inputAmount := some p.inputAmount,
        outputAmount := some (p.minOutputAmount * (101/100)) }
    else
      { success := txResult.success, signature := txResult.signature,
        error := txResult.error, confirmationTime := txResult.confirmationTime,
        blockHeight := txResult.blockHeight, fee := txResult.fee,
        dex := some p.sourceDex, pool := some p.sourcePool,
        inputToken := some p.inputToken, outputToken := some p.outputToken,
        inputAmount := some p.inputAmount, outputAmount := none }
  else
    { success := false, signature := none,
      error := some ("Swap execution failed: Unsupported DEX: " ++ p.sourceDex),
      confirmationTime := none, blockHeight := none, fee := none,
      dex := some p.sourceDex, pool := some p.sourcePool,
      inputToken := some p.inputToken, outputToken := some p.outputToken,
      inputAmount := some p.inputAmount, outputAmount := none }

/-- Swap request whose minimum output amount is zero. -/
def swapParamsZero : SwapInstructionParams :=
  { sourceDex := "Serum", sourcePool := "pool1", inputToken := "USDCmint",
    outputToken := "SOLmint", inputAmount := 100, minOutputAmount := 0,
    userSourceTokenAccount := "acctU", userDestinationTokenAccount := "acctS" }

/-- A successful transaction submission. -/
def txOk : TransactionResult :=
  { success := true, signature := some "sig1", error := none,
    confirmationTime := some 900, blockHeight := some 12345, fee := some (1/1000) }

/-- C10 counterexample: with `minOutputAmount = 0` and a successful
transaction, `executeSwap` returns `success = true` with
`outputAmount = some 0`, which is NOT strictly greater than the
requested `minOutputAmount` — the claim's "always strictly greater"
fails at zero. -/
theorem claim10_counterexample :
    (executeSwap swapParamsZero txOk).success = true
    ∧ (executeSwap swapParamsZero txOk).outputAmount = some 0
    ∧ ¬ ∃ v, (executeSwap swapParamsZero txOk).outputAmount = some v
        ∧ swapParamsZero.minOutputAmount < v := by
  simp only [executeSwap, supportedDexes, swapParamsZero, txOk, List.contains]
  norm_num

/-- C10 (amended): whenever `executeSwap` returns `success = true`, the
reported `outputAmount` equals exactly `minOutputAmount * 1.01` — an
estimate derived from the request, not a measured on-chain amount — and
it is strictly greater than `minOutputAmount` whenever the requested
minimum is positive. -/
theorem claim10_amended (p : SwapInstructionParams) (tx : TransactionResult)
    (h : (executeSwap p tx).success = true) :
    (executeSwap p tx).outputAmount = some (p.minOutputAmount * (101/100))
    ∧ (0 < p.minOutputAmount
        → p.minOutputAmount < p.minOutputAmount * (101/100)) := by
  have hgrow : 0 < p.minOutputAmount
      → p.minOutputAmount < p.minOutputAmount * (101/100) := by
    intro hpos
    nlinarith
  by_cases hd : supportedDexes.contains p.sourceDex = true
  · by_cases ht : tx.success = true
    · rw [executeSwap, if_pos hd, if_pos ht]
      exact ⟨rfl, hgrow⟩
    · rw [executeSwap, if_pos hd, if_neg ht] at h
      exact absurd h ht
  · rw [executeSwap, if_neg hd] at h
    cases h

/-- Swap request with a positive minimum output amount. -/
def swapParamsFive : SwapInstructionParams :=
  { sourceDex := "Serum", sourcePool := "pool1", inputToken := "USDCmint",
    outputToken := "SOLmint", inputAmount := 100, minOutputAmount := 5,
    userSourceTokenAccount := "acctU", userDestinationTokenAccount := "acctS" }

/-- C10 witness: the amended claim at a concrete successful swap. -/
theorem claim10_witness :
    (executeSwap swapParamsFive txOk).success = true
    ∧ ((executeSwap swapParamsFive txOk).outputAmount
        = some (swapParamsFive.minOutputAmount * (101/100))
      ∧ (0 < swapParamsFive.minOutputAmount
          → swapParamsFive.minOutputAmount
            < swapParamsFive.minOutputAmount * (101/100))) := by
  have hs : (executeSwap swapParamsFive txOk).success = true := by
    simp [executeSwap, supportedDexes, swapParamsFive, txOk]
  exact ⟨hs, claim10_amended swapParamsFive txOk hs⟩

/-- `ArbitrageTransactionParams` (addresses as strings). -/
structure ArbitrageTransactionParams where
  opportunity : ExecutableArbitrageOpportunity
  sourcePoolAddress : String
  targetPoolAddress : String
  tokenAMint : String
  tokenBMint : String
  userTokenAAccount : String
  userTokenBAccount : String
  slippageTolerance : ℚ
deriving DecidableEq

/-- `ArbitrageTransactionResult` (the wall-clock `executionTime`
bookkeeping field is not modelled). -/
structure ArbitrageTransactionResult where
  success : Bool
  opportunity : ExecutableArbitrageOpportunity
  sourceSwap : Option SwapResult
  targetSwap : Option SwapResult
  profit : Option ℚ
  profitPercentage : Option ℚ
  error : Option String
deriving DecidableEq

/-- JS `a || b` on `string | undefined`: the default is used when the
value is `undefined` or the empty string. -/
def jsOrString (o : Option String) (dflt : String) : String :=
  match o with
  | some s => if s = "" then dflt else s
  | none => dflt

/-- The `inputAmount` chosen by direction: `tradeSize * sourcePrice` for
a buy, `tradeSize` for a sell. -/
def arbInputAmount (p : ArbitrageTransactionParams) : ℚ :=
  if p.opportunity.direction = .buy then
    p.opportunity.tradeSize * p.opportunity.sourcePrice
  else p.opportunity.tradeSize

/-- The leg-1 swap request built by `executeArbitrage`: token routing by
direction, `minOutputAmount` from the expected output with the slippage
tolerance applied. -/
def sourceSwapParams (p : ArbitrageTransactionParams) : SwapInstructionParams :=
  let inputAmount := arbInputAmount p
  let expectedSourceOutput := inputAmount / p.opportunity.sourcePrice
  let minSourceOutput := expectedSourceOutput * (1 - p.slippageTolerance)
  if p.opportunity.direction = .buy then
    { sourceDex := p.opportunity.sourceDex, sourcePool := p.sourcePoolAddress,
      inputToken := p.tokenBMint, outputToken := p.tokenAMint,
      inputAmount := inputAmount, minOutputAmount := minSourceOutput,
      userSourceTokenAccount := p.userTokenBAccount,
      userDestinationTokenAccount := p.userTokenAAccount }
  else
    { sourceDex := p.opportunity.sourceDex, sourcePool := p.sourcePoolAddress,
      inputToken := p.tokenAMint, outputToken := p.tokenBMint,
      inputAmount := inputAmount, minOutputAmount := minSourceOutput,
      userSourceTokenAccount := p.userTokenAAccount,
      userDestinationTokenAccount := p.userTokenBAccount }

/-- The leg-2 swap request: its input amount is leg 1's realized output,
with its own slippage-adjusted minimum. -/
def targetSwapParams (p : ArbitrageTransactionParams) (sourceOutput : ℚ) :
    SwapInstructionParams :=
  let expectedTargetOutput := sourceOutput * p.opportunity.targetPrice
  let minTargetOutput := expectedTargetOutput * (1 - p.slippageTolerance)
  if p.opportunity.direction = .buy then
    { sourceDex := p.opportunity.targetDex, sourcePool := p.targetPoolAddress,
      inputToken := p.tokenAMint, outputToken := p.tokenBMint,
      inputAmount := sourceOutput, minOutputAmount := minTargetOutput,
      userSourceTokenAccount := p.userTokenAAccount,
      userDestinationTokenAccount := p.userTokenBAccount }
  else
    { sourceDex := p.opportunity.targetDex, sourcePool := p.targetPoolAddress,
      inputToken := p.tokenBMint, outputToken := p.tokenAMint,
      inputAmount := sourceOutput, minOutputAmount := minTargetOutput,
      userSourceTokenAccount := p.userTokenBAccount,
      userDestinationTokenAccount := p.userTokenAAccount }

/-- The result returned when leg 1 fails or reports no usable output. -/
def sourceFailResult (p : ArbitrageTransactionParams) (r1 : SwapResult) :
    ArbitrageTransactionResult × List SwapInstructionParams :=
  ({ success := false, opportunity := p.opportunity, sourceSwap := some r1,
     targetSwap := none, profit := none, profitPercentage := none,
     error := some (jsOrString r1.error "Source swap failed without specific error") },
   [sourceSwapParams p])

/-- The result returned when leg 2 fails or reports no usable output. -/
def targetFailResult (p : ArbitrageTransactionParams) (r1 r2 : SwapResult)
    (tgt : SwapInstructionParams) :
    ArbitrageTransactionResult × List SwapInstructionParams :=
  ({ success := false, opportunity := p.opportunity, sourceSwap := some r1,
     targetSwap := some r2, profit := none, profitPercentage := none,
     error := some (jsOrString r2.error "Target swap failed without specific error") },
   [sourceSwapParams p, tgt])

/-- Truthiness of the JS value `res.outputAmount : number | undefined`:
falsy when `undefined` or `0`. -/
def jsFalsyAmount (o : Option ℚ) : Bool :=
  match o with
  | none => true
  | some v => decide (v = 0)

/-- `ArbitrageExecutor.executeArbitrage`.  `swap` abstracts
`swapExecutor.executeSwap`; the second component of the result records
the sequence of swap submissions, so "leg 2 was never submitted" is the
statement that the log is `[sourceSwapParams p]`. -/
def executeArbitrage (p : ArbitrageTransactionParams)
    (swap : SwapInstructionParams → SwapResult) :
    ArbitrageTransactionResult × List SwapInstructionParams :=
  let src := sourceSwapParams p
  let inputAmount := arbInputAmount p
  let r1 := swap src
  if !r1.success || jsFalsyAmount r1.outputAmount then
    sourceFailResult p r1
  else
    let out1 := r1.outputAmount.getD 0
    let tgt := targetSwapParams p out1
    let r2 := swap tgt
    if !r2.success || jsFalsyAmount r2.outputAmount then
      targetFailResult p r1 r2 tgt
    else
      let out2 := r2.outputAmount.getD 0
      let profit := out2 - inputAmount
      ({ success := true, opportunity := p.opportunity,
         sourceSwap := some r1, targetSwap := some r2,
         profit := some profit,
         profitPercentage := some (profit / inputAmount * 100),
         error := none },
       [src, tgt])

theorem targetSwapParams_inputAmount (p : ArbitrageTransactionParams)
    (out : ℚ) : (targetSwapParams p out).inputAmount = out := by
  rw [targetSwapParams]
  by_cases hdir : p.opportunity.direction = .buy
  · rw [if_pos hdir]
  · rw [if_neg hdir]

/-- C1: if leg 1 returns `success = false` or no `outputAmount`, leg 2
is never submitted and the overall result is a failure carrying leg 1's
result and an error derived from the source swap (its error message, or
the default source-swap message); and leg 2 is submitted only after
leg 1 returned success with a defined (and, by JS truthiness, non-zero)
output amount, in which case leg 2's `inputAmount` equals leg 1's
realized `outputAmount`. -/
theorem claim1_legs (p : ArbitrageTransactionParams)
    (swap : SwapInstructionParams → SwapResult) :
    ((swap (sourceSwapParams p)).success = false
        ∨ (swap (sourceSwapParams p)).outputAmount = none →
      (executeArbitrage p swap).2 = [sourceSwapParams p]
        ∧ (executeArbitrage p swap).1.success = false
        ∧ (executeArbitrage p swap).1.targetSwap = none
        ∧ (executeArbitrage p swap).1.sourceSwap = some (swap (sourceSwapParams p))
        ∧ (executeArbitrage p swap).1.error
            = some (jsOrString (swap (sourceSwapParams p)).error
                "Source swap failed without specific error"))
    ∧ ((executeArbitrage p swap).2 = [sourceSwapParams p]
        ∨ ∃ out1, out1 ≠ 0 ∧ (swap (sourceSwapParams p)).success = true
            ∧ (swap (sourceSwapParams p)).outputAmount = some out1
            ∧ (executeArbitrage p swap).2
              = [sourceSwapParams p, targetSwapParams p out1]
            ∧ (targetSwapParams p out1).inputAmount = out1) := by
  by_cases hc : (!(swap (sourceSwapParams p)).success
      || jsFalsyAmount (swap (sourceSwapParams p)).outputAmount) = true
  · have hred : executeArbitrage p swap
        = sourceFailResult p (swap (sourceSwapParams p)) := by
      simp only [executeArbitrage]
      rw [if_pos hc]
    constructor
    · intro _
      rw [hred]
      exact ⟨rfl, rfl, rfl, rfl, rfl⟩
    · left
      rw [hred]
      rfl
  · have hsplit := hc
    rw [Bool.or_eq_true, Bool.not_eq_true'] at hsplit
    push_neg at hsplit
    obtain ⟨hsucc, hfal⟩ := hsplit
    have hsucc' : (swap (sourceSwapParams p)).success = true := by
      cases hb : (swap (sourceSwapParams p)).success with
      | true => rfl
      | false => exact absurd hb hsucc
    obtain ⟨out1, ho1, hz⟩ :
        ∃ v, (swap (sourceSwapParams p)).outputAmount = some v ∧ v ≠ 0 := by
      cases ho : (swap (sourceSwapParams p)).outputAmount with
      | none => exact absurd (by rw [ho]; rfl) hfal
      | some v =>
        refine ⟨v, rfl, ?_⟩
        intro hv
        apply hfal
        rw [ho, hv]
        simp [jsFalsyAmount]
    constructor
    · rintro (hs | ho)
      · rw [hsucc'] at hs
        cases hs
      · rw [ho1] at ho
        cases ho
    · right
      refine ⟨out1, hz, hsucc', ho1, ?_, targetSwapParams_inputAmount p out1⟩
      simp only [executeArbitrage]
      rw [if_neg hc, ho1, Option.getD_some]
      by_cases h2 : (!(swap (targetSwapParams p out1)).success
          || jsFalsyAmount (swap (targetSwapParams p out1)).outputAmount) = true
      · rw [if_pos h2]
        rfl
      · rw [if_neg h2]

/-- Concrete arbitrage execution request. -/
def arbParams0 : ArbitrageTransactionParams :=
  { opportunity := eoForDetector, sourcePoolAddress := "poolA",
    targetPoolAddress := "poolB", tokenAMint := "SOLmint",
    tokenBMint := "USDCmint", userTokenAAccount := "acctA",
    userTokenBAccount := "acctB", slippageTolerance := 3/1000 }

/-- Swap oracle whose submissions always fail. -/
def swapFailOracle : SwapInstructionParams → SwapResult := fun q =>
  { success := false, signature := none,
    error := some "Swap execution failed: node unreachable",
    confirmationTime := none, blockHeight := none, fee := none,
    inputAmount := some q.inputAmount, outputAmount := none,
    inputToken := some q.inputToken, outputToken := some q.outputToken,
    dex := some q.sourceDex, pool := some q.sourcePool }

/-- C1 witness: with a failing leg-1 swap, only the source swap is
submitted and the result is a failure with no target swap. -/
theorem claim1_witness :
    ((swapFailOracle (sourceSwapParams arbParams0)).success = false
      ∨ (swapFailOracle (sourceSwapParams arbParams0)).outputAmount = none)
    ∧ (executeArbitrage arbParams0 swapFailOracle).2 = [sourceSwapParams arbParams0]
    ∧ (executeArbitrage arbParams0 swapFailOracle).1.success = false
    ∧ (executeArbitrage arbParams0 swapFailOracle).1.targetSwap = none := by
  have h : (swapFailOracle (sourceSwapParams arbParams0)).success = false
      ∨ (swapFailOracle (sourceSwapParams arbParams0)).outputAmount = none :=
    Or.inl rfl
  have t := (claim1_legs arbParams0 swapFailOracle).1 h
  exact ⟨h, t.1, t.2.1, t.2.2.1⟩

end ArbBot
